import Mathlib

/-!
Verification of the headless collaborative document-operations engine
(`src/backend/src/services/document-operations.js` and
`src/backend/src/services/headless-cursor-plugin.js`) against its
natural-language specification.

The ProseMirror document built from the da.live schema (nodes: `doc` with
content `block+`, `paragraph` and `heading` blocks with inline content, and
`text` leaves; no marks) is embedded as a list of blocks, each carrying a
node kind and the characters of its single inline text child.  ProseMirror's
flattened position scheme assigns each block a start token, each character a
slot and each block an end token, so a block of text length `n` occupies
`n + 2` positions and its text child starts one position after the block.
-/

namespace DA

/-- Node kinds of the da.live schema used by the engine: `paragraph`, and
`heading` with a `level` attribute.  The level is the result of JavaScript's
`parseInt`, so it may be `NaN`, modelled as `none`. -/
inductive NodeKind where
  | paragraph : NodeKind
  | heading (level : Option Int) : NodeKind
deriving DecidableEq, Repr

/-- One top-level block of the document: its node kind and the characters of
its inline text content (`[]` when the block has no text child). -/
structure Block where
  kind : NodeKind
  text : List Char
deriving DecidableEq, Repr

/-- ProseMirror node size of a block: opening token + characters + closing
token. -/
def sizeB (b : Block) : Nat := b.text.length + 2

/-- Flat position of block `i`'s opening token (sum of the sizes of the
blocks before it). -/
def blockStart (doc : List Block) (i : Nat) : Nat :=
  ((doc.take i).map sizeB).sum

/-- Total content size of the document (the `to` endpoint of ProseMirror's
`AllSelection`). -/
def docSize (doc : List Block) : Nat := (doc.map sizeB).sum

/-- ProseMirror selection as the engine sees it: either the initial
whole-document `AllSelection` placeholder, or a `TextSelection` given by its
`anchor` and `head` flat positions. -/
inductive Sel where
  | all : Sel
  | textSel (anchor head : Nat) : Sel
deriving DecidableEq, Repr

/-- Character-wise lower-casing, the embedding of
`String.prototype.toLowerCase` as used by `findText`. -/
def lowerStr (s : List Char) : List Char := s.map Char.toLower

/-- First index at which `s` occurs as a contiguous sublist of `t`
(the embedding of `String.prototype.indexOf`): `some i` for the least such
`i`, `none` when there is no occurrence. -/
def firstMatch (t s : List Char) : Option Nat :=
  if s.isPrefixOf t then some 0
  else
    match t with
    | [] => none
    | _ :: t2 => (firstMatch t2 s).map (· + 1)

/-- JavaScript's `text.toLowerCase().indexOf(search.toLowerCase())` from
`findText` (line 164), as an `Option` instead of a `-1` sentinel. -/
def jsIndexOf (t s : List Char) : Option Nat :=
  firstMatch (lowerStr t) (lowerStr s)

/-- Recursive worker for `findText`: scans the blocks in document order
(exactly the depth-first, left-to-right order in which `doc.descendants`
visits text nodes), keeping the flat position `pos` of the current block.
A block contributes a text node only when its text is nonempty (the
`node.isText && node.text` guard); the text node sits at `pos + 1`.  On a
hit at in-node index `i` the result is
`{ from := pos + 1 + i, to := from + searchText.length }` as on lines
166-173 of the source. -/
def findTextAux : List Block → List Char → Nat → Option (Nat × Nat)
  | [], _, _ => none
  | b :: bs, s, pos =>
    if b.text = [] then findTextAux bs s (pos + sizeB b)
    else
      match jsIndexOf b.text s with
      | some i => some (pos + 1 + i, pos + 1 + i + s.length)
      | none => findTextAux bs s (pos + sizeB b)

/-- Embedding of `findText(view, searchText)` (document-operations.js lines
155-174): first case-insensitive substring match over the document's text
nodes in document order, returning the flat `{from, to}` span. -/
def findText (doc : List Block) (searchText : List Char) : Option (Nat × Nat) :=
  findTextAux doc searchText 0

theorem firstMatch_some_spec :
    ∀ (t s : List Char) (i : Nat), firstMatch t s = some i →
      s <+: t.drop i ∧ i ≤ t.length ∧ ∀ j, j < i → ¬ s <+: t.drop j := by
  intro t
  induction t with
  | nil =>
    intro s i h
    rw [firstMatch] at h
    split at h
    · next hp =>
      cases h
      exact ⟨by simpa using List.isPrefixOf_iff_prefix.mp hp, by simp, by omega⟩
    · simp at h
  | cons c t2 ih =>
    intro s i h
    rw [firstMatch] at h
    split at h
    · next hp =>
      cases h
      exact ⟨by simpa using List.isPrefixOf_iff_prefix.mp hp, by simp, by omega⟩
    · next hp =>
      rw [Option.map_eq_some'] at h
      obtain ⟨i2, h2, hi⟩ := h
      subst hi
      obtain ⟨hpre, hle, hmin⟩ := ih s i2 h2
      refine ⟨by simpa using hpre, by simp; omega, ?_⟩
      intro j hj
      cases j with
      | zero =>
        intro hc
        exact hp (List.isPrefixOf_iff_prefix.mpr (by simpa using hc))
      | succ j2 =>
        intro hc
        exact hmin j2 (by omega) (by simpa using hc)

theorem firstMatch_isSome_of_exists :
    ∀ (t s : List Char), (∃ i, s <+: t.drop i) → (firstMatch t s).isSome := by
  intro t
  induction t with
  | nil =>
    rintro s ⟨i, hi⟩
    rw [firstMatch]
    split
    · simp
    · next hp =>
      exfalso
      apply hp
      apply List.isPrefixOf_iff_prefix.mpr
      simp only [List.drop_nil, List.prefix_nil] at hi
      simp [hi]
  | cons c t2 ih =>
    rintro s ⟨i, hi⟩
    rw [firstMatch]
    split
    · simp
    · next hp =>
      have hex : ∃ j, s <+: t2.drop j := by
        cases i with
        | zero =>
          exact absurd (List.isPrefixOf_iff_prefix.mpr (by simpa using hi)) hp
        | succ j => exact ⟨j, by simpa using hi⟩
      obtain ⟨v, hv⟩ := Option.isSome_iff_exists.mp (ih s hex)
      rw [hv]
      simp

theorem infix_iff_exists_prefix_drop (s t : List Char) :
    s <:+: t ↔ ∃ i, s <+: t.drop i := by
  constructor
  · rintro ⟨pre, post, rfl⟩
    refine ⟨pre.length, ?_⟩
    rw [List.append_assoc, List.drop_left]
    exact ⟨post, rfl⟩
  · rintro ⟨i, r, hr⟩
    refine ⟨t.take i, r, ?_⟩
    rw [List.append_assoc, hr, List.take_append_drop]

theorem jsIndexOf_isSome_iff (t s : List Char) :
    (jsIndexOf t s).isSome ↔ lowerStr s <:+: lowerStr t := by
  rw [jsIndexOf, infix_iff_exists_prefix_drop]
  constructor
  · intro h
    obtain ⟨i, hi⟩ := Option.isSome_iff_exists.mp h
    exact ⟨i, (firstMatch_some_spec _ _ _ hi).1⟩
  · exact firstMatch_isSome_of_exists _ _

theorem jsIndexOf_some_spec (t s : List Char) (i : Nat) (h : jsIndexOf t s = some i) :
    lowerStr s <+: (lowerStr t).drop i ∧ i ≤ t.length ∧
      ∀ j, j < i → ¬ lowerStr s <+: (lowerStr t).drop j := by
  have hs := firstMatch_some_spec (lowerStr t) (lowerStr s) i h
  simpa [lowerStr] using hs

/-- Resolve a flat position to `(block index, offset into that block's
text)` when the position is an inline position (strictly inside a block).
Positions on block boundaries (depth 0) resolve to `none`. -/
def resolveInline : List Block → Nat → Option (Nat × Nat)
  | [], _ => none
  | b :: bs, p =>
    if p = 0 then none
    else if p ≤ b.text.length + 1 then some (0, p - 1)
    else
      match resolveInline bs (p - sizeB b) with
      | some (i, off) => some (i + 1, off)
      | none => none

theorem blockStart_zero (doc : List Block) : blockStart doc 0 = 0 := by
  simp [blockStart]

theorem blockStart_succ_cons (b : Block) (bs : List Block) (i : Nat) :
    blockStart (b :: bs) (i + 1) = sizeB b + blockStart bs i := by
  simp [blockStart, List.take_succ_cons]

theorem findTextAux_some_spec :
    ∀ (doc : List Block) (s : List Char) (pos f t : Nat),
      findTextAux doc s pos = some (f, t) →
      ∃ i b idx, doc[i]? = some b ∧ b.text ≠ [] ∧ jsIndexOf b.text s = some idx ∧
        (∀ j b2, j < i → doc[j]? = some b2 → b2.text = [] ∨ jsIndexOf b2.text s = none) ∧
        f = pos + blockStart doc i + 1 + idx ∧ t = f + s.length := by
  intro doc
  induction doc with
  | nil => intro s pos f t h; simp [findTextAux] at h
  | cons b bs ih =>
    intro s pos f t h
    rw [findTextAux] at h
    split at h
    · next hb =>
      obtain ⟨i, b2, idx, h1, h2, h3, h4, h5, h6⟩ := ih s (pos + sizeB b) f t h
      refine ⟨i + 1, b2, idx, by simpa using h1, h2, h3, ?_, ?_, h6⟩
      · intro j bj hj hbj
        cases j with
        | zero =>
          left
          simp only [List.getElem?_cons_zero, Option.some.injEq] at hbj
          rw [← hbj]
          exact hb
        | succ j2 => exact h4 j2 bj (by omega) (by simpa using hbj)
      · rw [h5, blockStart_succ_cons]
        omega
    · next hb =>
      cases hidx : jsIndexOf b.text s with
      | some i0 =>
        rw [hidx] at h
        simp only [Option.some.injEq, Prod.mk.injEq] at h
        obtain ⟨hf, ht⟩ := h
        refine ⟨0, b, i0, by simp, hb, hidx, by omega, ?_, by omega⟩
        rw [blockStart_zero]
        omega
      | none =>
        rw [hidx] at h
        obtain ⟨i, b2, idx, h1, h2, h3, h4, h5, h6⟩ := ih s (pos + sizeB b) f t h
        refine ⟨i + 1, b2, idx, by simpa using h1, h2, h3, ?_, ?_, h6⟩
        · intro j bj hj hbj
          cases j with
          | zero =>
            right
            simp only [List.getElem?_cons_zero, Option.some.injEq] at hbj
            rw [← hbj]
            exact hidx
          | succ j2 => exact h4 j2 bj (by omega) (by simpa using hbj)
        · rw [h5, blockStart_succ_cons]
          omega

theorem findTextAux_isSome :
    ∀ (doc : List Block) (s : List Char) (pos : Nat),
      (∃ b ∈ doc, b.text ≠ [] ∧ (jsIndexOf b.text s).isSome) →
      (findTextAux doc s pos).isSome := by
  intro doc
  induction doc with
  | nil =>
    rintro s pos ⟨b, hb, _⟩
    simp at hb
  | cons b bs ih =>
    rintro s pos ⟨b2, hb2, hne, hsome⟩
    rw [findTextAux]
    split
    · next hb =>
      apply ih
      rcases List.mem_cons.mp hb2 with h | h
      · rw [h] at hne; exact absurd hb hne
      · exact ⟨b2, h, hne, hsome⟩
    · next hb =>
      cases hidx : jsIndexOf b.text s with
      | some i0 => simp [hidx]
      | none =>
        show (findTextAux bs s (pos + sizeB b)).isSome = true
        apply ih
        rcases List.mem_cons.mp hb2 with h | h
        · rw [h, hidx] at hsome; simp at hsome
        · exact ⟨b2, h, hne, hsome⟩

theorem findTextAux_none_of_absent :
    ∀ (doc : List Block) (s : List Char) (pos : Nat),
      (∀ b ∈ doc, b.text = [] ∨ jsIndexOf b.text s = none) →
      findTextAux doc s pos = none := by
  intro doc
  induction doc with
  | nil => intro s pos _; simp [findTextAux]
  | cons b bs ih =>
    intro s pos habs
    rw [findTextAux]
    split
    · exact ih s _ (fun b2 h => habs b2 (List.mem_cons_of_mem _ h))
    · next hb =>
      rcases habs b (List.mem_cons_self _ _) with h | h
      · exact absurd h hb
      · rw [h]
        exact ih s _ (fun b2 h2 => habs b2 (List.mem_cons_of_mem _ h2))

/-- Structured result every operation returns:
`{success: bool, message: string, position?: {from, to}}`. -/
structure OpResult where
  success : Bool
  message : List Char
  position : Option (Nat × Nat)
deriving DecidableEq, Repr

/-- Success message of `positionCursor` (line 210 of the source). -/
def foundMsg (s : List Char) (f t : Nat) : List Char :=
  "Found \"".data ++ s ++ "\" at position ".data ++
    (Nat.repr f).data ++ "-".data ++ (Nat.repr t).data

/-- Not-found message of `positionCursor` and `replaceText` (lines 216 and
325 of the source). -/
def notFoundMsg (s : List Char) : List Char :=
  "Text \"".data ++ s ++ "\" not found".data

/-- Embedding of `positionCursor(docUrl, collabUrl, searchText)` (lines
194-226) acting on the connected session's document and selection: on a
match it dispatches `TextSelection.create(doc, pos.from, pos.to)` (anchor =
`from`, head = `to`) and reports the span; on no match it reports failure
and dispatches nothing, leaving the selection (and document) unchanged.
Returns the result together with the selection after the call. -/
def positionCursor (doc : List Block) (sel : Sel) (searchText : List Char) :
    OpResult × Sel :=
  match findText doc searchText with
  | some (f, t) => (⟨true, foundMsg searchText f t, some (f, t)⟩, Sel.textSel f t)
  | none => (⟨false, notFoundMsg searchText, none⟩, sel)

/-- Semantics of `tr.replaceWith(f, t, schema.text(repl))` for the spans
`findText` produces (an inline range inside a single text node): the
characters at offsets `f - 1 ... f - 1 + (t - f)` of the enclosing block's
text are replaced by `repl`.  Positions that do not fall inside a block
leave the document unchanged (such a transform would throw; `replaceText`
never reaches this case). -/
def replaceRange : List Block → Nat → Nat → List Char → List Block
  | [], _, _, _ => []
  | b :: bs, f, t, repl =>
    if f = 0 then b :: bs
    else if f ≤ b.text.length + 1 then
      ⟨b.kind, b.text.take (f - 1) ++ repl ++ b.text.drop (f - 1 + (t - f))⟩ :: bs
    else
      b :: replaceRange bs (f - sizeB b) (t - sizeB b) repl

/-- Embedding of `replaceText(docUrl, collabUrl, findText, replaceText)`
(lines 303-335): the same first-match search as `positionCursor`; on a match
the span is replaced by a single text node carrying the replacement
(`schema.text(replaceText)` throws "Empty text nodes are not allowed" for an
empty replacement, which the catch converts to a failure result, document
unchanged); on no match the failure result reports the missing text and the
document is untouched. -/
def replaceText (doc : List Block) (findStr replStr : List Char) :
    OpResult × List Block :=
  match findText doc findStr with
  | some (f, t) =>
    if replStr = [] then
      (⟨false, "Error: Empty text nodes are not allowed".data, none⟩, doc)
    else
      (⟨true, "Text replaced successfully".data, none⟩, replaceRange doc f t replStr)
  | none => (⟨false, notFoundMsg findStr, none⟩, doc)

theorem mem_set_of_lt {α : Type} :
    ∀ (l : List α) (i : Nat) (a : α), i < l.length → a ∈ l.set i a := by
  intro l
  induction l with
  | nil => intro i a h; simp at h
  | cons x xs ih =>
    intro i a h
    cases i with
    | zero => simp [List.set]
    | succ j =>
      simp only [List.set, List.mem_cons]
      exact Or.inr (ih j a (by simpa using h))

/-- C1: for every document and search string occurring case-insensitively in
the document's inline text, `positionCursor` succeeds with a position
spanning exactly the search string's characters at the first occurrence in
document (depth-first, left-to-right) order, and sets the local selection to
that exact span (anchor = match start, head = match end). -/
theorem positionCursor_selects_first_match
    (doc : List Block) (sel : Sel) (S : List Char)
    (hocc : ∃ b ∈ doc, b.text ≠ [] ∧ lowerStr S <:+: lowerStr b.text) :
    ∃ i b idx,
      doc[i]? = some b ∧ b.text ≠ [] ∧
      idx + S.length ≤ b.text.length ∧
      lowerStr ((b.text.drop idx).take S.length) = lowerStr S ∧
      (∀ j b2, j < i → doc[j]? = some b2 →
        ¬ (b2.text ≠ [] ∧ lowerStr S <:+: lowerStr b2.text)) ∧
      (∀ idx2, idx2 < idx → ¬ lowerStr S <+: (lowerStr b.text).drop idx2) ∧
      positionCursor doc sel S =
        (⟨true, foundMsg S (blockStart doc i + 1 + idx) (blockStart doc i + 1 + idx + S.length),
          some (blockStart doc i + 1 + idx, blockStart doc i + 1 + idx + S.length)⟩,
         Sel.textSel (blockStart doc i + 1 + idx) (blockStart doc i + 1 + idx + S.length)) := by
  obtain ⟨b0, hb0, hne0, hinf0⟩ := hocc
  have hsome : (findTextAux doc S 0).isSome :=
    findTextAux_isSome doc S 0 ⟨b0, hb0, hne0, (jsIndexOf_isSome_iff _ _).mpr hinf0⟩
  obtain ⟨⟨f, t⟩, hft⟩ := Option.isSome_iff_exists.mp hsome
  obtain ⟨i, b, idx, h1, h2, h3, h4, h5, h6⟩ := findTextAux_some_spec doc S 0 f t hft
  obtain ⟨hpre, hle, hmin⟩ := jsIndexOf_some_spec b.text S idx h3
  have hlen : (lowerStr S).length = S.length := by simp [lowerStr]
  have hb1 : S.length ≤ b.text.length - idx := by
    have := hpre.length_le
    simpa [lowerStr] using this
  have hbound : idx + S.length ≤ b.text.length := by omega
  have hchars : lowerStr ((b.text.drop idx).take S.length) = lowerStr S := by
    have h7 : lowerStr ((b.text.drop idx).take S.length)
        = ((lowerStr b.text).drop idx).take S.length := by
      simp [lowerStr, List.map_take, List.map_drop]
    rw [h7, ← hlen]
    exact (List.prefix_iff_eq_take.mp hpre).symm
  have hf : f = blockStart doc i + 1 + idx := by omega
  have ht : t = blockStart doc i + 1 + idx + S.length := by omega
  subst hf
  subst ht
  refine ⟨i, b, idx, h1, h2, hbound, hchars, ?_, hmin, ?_⟩
  · intro j b2 hj hjb hc
    rcases h4 j b2 hj hjb with he | hn
    · exact hc.1 he
    · have hx : (jsIndexOf b2.text S).isSome := (jsIndexOf_isSome_iff _ _).mpr hc.2
      rw [hn] at hx
      simp at hx
  · simp [positionCursor, findText, hft]

/-- Witness for C1 at the one-paragraph document "Hello" and the
case-insensitively occurring search string "ELL". -/
theorem positionCursor_selects_first_match_witness :
    (∃ b ∈ [Block.mk NodeKind.paragraph "Hello".data],
      b.text ≠ [] ∧ lowerStr "ELL".data <:+: lowerStr b.text) ∧
    (∃ i b idx,
      ([Block.mk NodeKind.paragraph "Hello".data])[i]? = some b ∧ b.text ≠ [] ∧
      idx + ("ELL".data).length ≤ b.text.length ∧
      lowerStr ((b.text.drop idx).take ("ELL".data).length) = lowerStr "ELL".data ∧
      (∀ j b2, j < i → ([Block.mk NodeKind.paragraph "Hello".data])[j]? = some b2 →
        ¬ (b2.text ≠ [] ∧ lowerStr "ELL".data <:+: lowerStr b2.text)) ∧
      (∀ idx2, idx2 < idx → ¬ lowerStr "ELL".data <+: (lowerStr b.text).drop idx2) ∧
      positionCursor [Block.mk NodeKind.paragraph "Hello".data] Sel.all "ELL".data =
        (⟨true, foundMsg "ELL".data
            (blockStart [Block.mk NodeKind.paragraph "Hello".data] i + 1 + idx)
            (blockStart [Block.mk NodeKind.paragraph "Hello".data] i + 1 + idx
              + ("ELL".data).length),
          some (blockStart [Block.mk NodeKind.paragraph "Hello".data] i + 1 + idx,
            blockStart [Block.mk NodeKind.paragraph "Hello".data] i + 1 + idx
              + ("ELL".data).length)⟩,
         Sel.textSel (blockStart [Block.mk NodeKind.paragraph "Hello".data] i + 1 + idx)
           (blockStart [Block.mk NodeKind.paragraph "Hello".data] i + 1 + idx
             + ("ELL".data).length))) :=
  ⟨by decide, positionCursor_selects_first_match _ Sel.all _ (by decide)⟩

/-- C2: when the search string is absent from the document's inline text,
`positionCursor` and `replaceText` both fail with a message identifying the
missing text; the document content and the selection are left unchanged. -/
theorem absent_search_is_failed_noop
    (doc : List Block) (sel : Sel) (S R : List Char)
    (habs : ∀ b ∈ doc, ¬ (b.text ≠ [] ∧ lowerStr S <:+: lowerStr b.text)) :
    positionCursor doc sel S = (⟨false, notFoundMsg S, none⟩, sel) ∧
    replaceText doc S R = (⟨false, notFoundMsg S, none⟩, doc) := by
  have hnone : findTextAux doc S 0 = none := by
    apply findTextAux_none_of_absent
    intro b hb
    by_cases he : b.text = []
    · exact Or.inl he
    · right
      cases hx : jsIndexOf b.text S with
      | none => rfl
      | some v =>
        exfalso
        apply habs b hb
        refine ⟨he, (jsIndexOf_isSome_iff _ _).mp ?_⟩
        rw [hx]
        rfl
  constructor <;> simp [positionCursor, replaceText, findText, hnone]

/-- Witness for C2 at the one-paragraph document "Hello" and the absent
search string "zz". -/
theorem absent_search_is_failed_noop_witness :
    (∀ b ∈ [Block.mk NodeKind.paragraph "Hello".data],
      ¬ (b.text ≠ [] ∧ lowerStr "zz".data <:+: lowerStr b.text)) ∧
    (positionCursor [Block.mk NodeKind.paragraph "Hello".data] Sel.all "zz".data =
      (⟨false, notFoundMsg "zz".data, none⟩, Sel.all) ∧
    replaceText [Block.mk NodeKind.paragraph "Hello".data] "zz".data "y".data =
      (⟨false, notFoundMsg "zz".data, none⟩, [Block.mk NodeKind.paragraph "Hello".data])) :=
  ⟨by decide, absent_search_is_failed_noop _ Sel.all _ "y".data (by decide)⟩

theorem replaceRange_at_block :
    ∀ (doc : List Block) (i idx n : Nat) (b : Block) (repl : List Char),
      doc[i]? = some b → idx ≤ b.text.length →
      replaceRange doc (blockStart doc i + 1 + idx) (blockStart doc i + 1 + idx + n) repl =
        doc.set i ⟨b.kind, b.text.take idx ++ repl ++ b.text.drop (idx + n)⟩ := by
  intro doc
  induction doc with
  | nil => intro i idx n b repl h _; simp at h
  | cons b0 bs ih =>
    intro i idx n b repl hget hidx
    cases i with
    | zero =>
      simp only [List.getElem?_cons_zero, Option.some.injEq] at hget
      subst hget
      simp only [blockStart_zero, Nat.zero_add]
      rw [replaceRange]
      have h0 : ¬ (1 + idx = 0) := by omega
      have h1 : 1 + idx ≤ b0.text.length + 1 := by omega
      rw [if_neg h0, if_pos h1]
      have e1 : 1 + idx - 1 = idx := by omega
      have e2 : 1 + idx + n - (1 + idx) = n := by omega
      rw [e1, e2]
      simp [List.set]
    | succ i2 =>
      simp only [List.getElem?_cons_succ] at hget
      rw [blockStart_succ_cons, replaceRange]
      have hsz : sizeB b0 = b0.text.length + 2 := rfl
      have h0 : ¬ (sizeB b0 + blockStart bs i2 + 1 + idx = 0) := by omega
      have h1 : ¬ (sizeB b0 + blockStart bs i2 + 1 + idx ≤ b0.text.length + 1) := by omega
      rw [if_neg h0, if_neg h1]
      have e1 : sizeB b0 + blockStart bs i2 + 1 + idx - sizeB b0 =
          blockStart bs i2 + 1 + idx := by omega
      have e2 : sizeB b0 + blockStart bs i2 + 1 + idx + n - sizeB b0 =
          blockStart bs i2 + 1 + idx + n := by omega
      rw [e1, e2, ih i2 idx n b repl hget hidx]
      simp [List.set]

/-- C8: whenever `replaceText` reports success, the replacement text is
findable immediately afterwards — `positionCursor` for the replacement
string succeeds on the resulting document. -/
theorem replaceText_then_positionCursor_succeeds
    (doc : List Block) (sel : Sel) (S R : List Char)
    (hsucc : (replaceText doc S R).1.success = true) :
    ((positionCursor ((replaceText doc S R).2) sel R).1).success = true := by
  cases hft : findText doc S with
  | none =>
    exfalso
    rw [replaceText, hft] at hsucc
    simp at hsucc
  | some p =>
    obtain ⟨f, t⟩ := p
    by_cases hR : R = []
    · exfalso
      rw [replaceText, hft] at hsucc
      simp [hR] at hsucc
    · have hres : (replaceText doc S R).2 = replaceRange doc f t R := by
        rw [replaceText, hft]
        simp [hR]
      obtain ⟨i, b, idx, h1, h2, h3, h4, h5, h6⟩ := findTextAux_some_spec doc S 0 f t hft
      obtain ⟨hpre, hle, hmin⟩ := jsIndexOf_some_spec b.text S idx h3
      have hf : f = blockStart doc i + 1 + idx := by omega
      have ht : t = blockStart doc i + 1 + idx + S.length := by omega
      subst hf
      subst ht
      rw [hres, replaceRange_at_block doc i idx S.length b R h1 hle]
      set nb : Block := ⟨b.kind, b.text.take idx ++ R ++ b.text.drop (idx + S.length)⟩ with hnb
      have hlt : i < doc.length := by
        rw [List.getElem?_eq_some] at h1
        exact h1.1
      have hmem : nb ∈ doc.set i nb := mem_set_of_lt doc i nb hlt
      have hoccR : lowerStr R <:+: lowerStr nb.text := by
        refine ⟨lowerStr (b.text.take idx), lowerStr (b.text.drop (idx + S.length)), ?_⟩
        simp [lowerStr, hnb]
      have hne : nb.text ≠ [] := by
        simp only [hnb]
        intro hcontra
        rcases List.append_eq_nil.mp hcontra with ⟨h1', h2'⟩
        rcases List.append_eq_nil.mp h1' with ⟨_, hR'⟩
        exact hR hR'
      have hsome2 : (findTextAux (doc.set i nb) R 0).isSome :=
        findTextAux_isSome _ _ _ ⟨nb, hmem, hne, (jsIndexOf_isSome_iff _ _).mpr hoccR⟩
      obtain ⟨⟨f2, t2⟩, hf2⟩ := Option.isSome_iff_exists.mp hsome2
      simp [positionCursor, findText, hf2]

/-- Witness for C8 at the one-paragraph document "Old Title" with
`replaceText("Old", "New")`. -/
theorem replaceText_then_positionCursor_succeeds_witness :
    ((replaceText [Block.mk NodeKind.paragraph "Old Title".data]
        "Old".data "New".data).1.success = true) ∧
    ((positionCursor ((replaceText [Block.mk NodeKind.paragraph "Old Title".data]
        "Old".data "New".data).2) Sel.all "New".data).1).success = true :=
  ⟨by decide,
   replaceText_then_positionCursor_succeeds _ Sel.all _ _ (by decide)⟩

deriving instance DecidableEq for Except

/-- A live session as cached by `DocumentOperations` (the `connection`
object of lines 122-129): identified by the `WebsocketProvider` instance it
wraps (`sid` numbers the providers in creation order) and bound to the
document and collaboration URLs it was opened for. -/
structure Session where
  sid : Nat
  docUrl : List Char
  collabUrl : List Char
deriving DecidableEq, Repr

/-- Cache key of the session cache (line 26 of the source):
the plain concatenation `collabUrl + ":" + docUrl`. -/
def cacheKey (docUrl collabUrl : List Char) : List Char :=
  collabUrl ++ [':'] ++ docUrl

/-- Lookup in the `connections` map (`Map.get`), modelled as an association
list. -/
def lookupConn : List (List Char × Session) → List Char → Option Session
  | [], _ => none
  | (k, v) :: rest, key => if k = key then some v else lookupConn rest key

/-- Store into the `connections` map (`Map.set`): overwrites an existing
entry for the key, otherwise appends. -/
def setConn : List (List Char × Session) → List Char → Session → List (List Char × Session)
  | [], key, s => [(key, s)]
  | (k, v) :: rest, key, s =>
    if k = key then (key, s) :: rest else (k, v) :: setConn rest key s

/-- Mutable state of the `DocumentOperations` singleton: the session cache
plus a counter numbering the `WebsocketProvider` instances created so far
(so `nextSid` counts every network connection ever opened). -/
structure OpsState where
  connections : List (List Char × Session)
  nextSid : Nat
deriving DecidableEq, Repr

/-- A `connect` call suspended at its `await`: it has already created its
provider (session `sid`) and remembers the cache key it will store under. -/
structure PendingConn where
  key : List Char
  providerSid : Nat
deriving DecidableEq, Repr

/-- The synchronous prefix of `connect` up to the first `await` (lines
26-86): compute the cache key, return the cached session if one exists,
otherwise create the Y.Doc and `WebsocketProvider` (a new network
connection, numbered by `nextSid`) and suspend waiting for sync.  Note the
cache is NOT written here; that happens only after the `await`. -/
def connectPhase1 (st : OpsState) (docUrl collabUrl : List Char) :
    OpsState × (Session ⊕ PendingConn) :=
  let key := cacheKey docUrl collabUrl
  match lookupConn st.connections key with
  | some s => (st, Sum.inl s)
  | none => (⟨st.connections, st.nextSid + 1⟩, Sum.inr ⟨key, st.nextSid⟩)

/-- The continuation of `connect` after a successful sync (lines 105-134):
build the view and connection object around the provider created in phase 1,
store it in the cache (line 131) and return it. -/
def connectPhase2 (st : OpsState) (p : PendingConn) (docUrl collabUrl : List Char) :
    OpsState × Session :=
  let s : Session := ⟨p.providerSid, docUrl, collabUrl⟩
  (⟨setConn st.connections p.key s, st.nextSid⟩, s)

/-- A full sequential `connect(docUrl, collabUrl)` call (lines 25-135):
phase 1, then — when no cached session was found — either the sync completes
within the 10 s timeout (`syncOk = true`) and phase 2 caches and returns the
new session, or the timeout fires and the call rejects with "Sync timeout",
discarding the partially-built session without ever caching it. -/
def connect (st : OpsState) (docUrl collabUrl : List Char) (syncOk : Bool) :
    Except (List Char) Session × OpsState :=
  match connectPhase1 st docUrl collabUrl with
  | (st1, Sum.inl s) => (Except.ok s, st1)
  | (st1, Sum.inr p) =>
    if syncOk then
      let r := connectPhase2 st1 p docUrl collabUrl
      (Except.ok r.2, r.1)
    else (Except.error "Sync timeout".data, st1)

/-- C4: a sequential `connect` for an identity that already has a cached
session returns that session unchanged and leaves the whole state (cache and
provider counter) untouched — no new session is created, preserving the
at-most-one-session-per-identity invariant. -/
theorem connect_returns_cached_session
    (st : OpsState) (docUrl collabUrl : List Char) (s : Session) (syncOk : Bool)
    (hcached : lookupConn st.connections (cacheKey docUrl collabUrl) = some s) :
    connect st docUrl collabUrl syncOk = (Except.ok s, st) := by
  rw [connect, connectPhase1]
  simp [hcached]

/-- Witness for C4: a state caching one session for `("doc", "wss")`. -/
theorem connect_returns_cached_session_witness :
    (lookupConn [(cacheKey "doc".data "wss".data,
        Session.mk 0 "doc".data "wss".data)]
      (cacheKey "doc".data "wss".data) = some (Session.mk 0 "doc".data "wss".data)) ∧
    connect ⟨[(cacheKey "doc".data "wss".data, Session.mk 0 "doc".data "wss".data)], 1⟩
        "doc".data "wss".data true =
      (Except.ok (Session.mk 0 "doc".data "wss".data),
       ⟨[(cacheKey "doc".data "wss".data, Session.mk 0 "doc".data "wss".data)], 1⟩) :=
  ⟨by decide, connect_returns_cached_session _ _ _ _ true (by decide)⟩

/-- C5: when the initial synchronization does not complete within the fixed
10-second bound, `connect` fails with the sync-timeout error and the
partially-built session is never cached: the cache part of the state is
unchanged, and it still has no entry for the identity. -/
theorem connect_sync_timeout_not_cached
    (st : OpsState) (docUrl collabUrl : List Char)
    (hmiss : lookupConn st.connections (cacheKey docUrl collabUrl) = none) :
    connect st docUrl collabUrl false =
      (Except.error "Sync timeout".data, ⟨st.connections, st.nextSid + 1⟩) ∧
    lookupConn (connect st docUrl collabUrl false).2.connections
      (cacheKey docUrl collabUrl) = none := by
  have h : connect st docUrl collabUrl false =
      (Except.error "Sync timeout".data, ⟨st.connections, st.nextSid + 1⟩) := by
    rw [connect, connectPhase1]
    simp [hmiss]
  exact ⟨h, by rw [h]; exact hmiss⟩

/-- Witness for C5: a timed-out `connect` on the empty cache. -/
theorem connect_sync_timeout_not_cached_witness :
    (lookupConn ([] : List (List Char × Session))
      (cacheKey "doc".data "wss".data) = none) ∧
    (connect ⟨[], 0⟩ "doc".data "wss".data false =
      (Except.error "Sync timeout".data, ⟨[], 1⟩) ∧
    lookupConn (connect ⟨[], 0⟩ "doc".data "wss".data false).2.connections
      (cacheKey "doc".data "wss".data) = none) :=
  ⟨by decide, connect_sync_timeout_not_cached ⟨[], 0⟩ _ _ (by decide)⟩

/-- C3: two overlapping `connect` calls for the same identity race through
the unguarded check-then-cache: with the schedule phase1 of call A, phase1
of call B (both cache checks miss because neither call has reached line 131
yet), then both phase 2s, the code opens TWO WebsocketProvider network
connections (`nextSid` ends at 2) and the two calls return two distinct
session objects, the second silently overwriting the first in the cache —
contradicting the claim that exactly one underlying session is created and
both calls return the identical handle. -/
theorem connect_race_creates_two_sessions :
    connectPhase1 ⟨[], 0⟩ "doc".data "wss".data =
      (⟨[], 1⟩, Sum.inr ⟨cacheKey "doc".data "wss".data, 0⟩) ∧
    connectPhase1 ⟨[], 1⟩ "doc".data "wss".data =
      (⟨[], 2⟩, Sum.inr ⟨cacheKey "doc".data "wss".data, 1⟩) ∧
    connectPhase2 ⟨[], 2⟩ ⟨cacheKey "doc".data "wss".data, 0⟩ "doc".data "wss".data =
      (⟨[(cacheKey "doc".data "wss".data, Session.mk 0 "doc".data "wss".data)], 2⟩,
       Session.mk 0 "doc".data "wss".data) ∧
    connectPhase2 ⟨[(cacheKey "doc".data "wss".data,
        Session.mk 0 "doc".data "wss".data)], 2⟩
        ⟨cacheKey "doc".data "wss".data, 1⟩ "doc".data "wss".data =
      (⟨[(cacheKey "doc".data "wss".data, Session.mk 1 "doc".data "wss".data)], 2⟩,
       Session.mk 1 "doc".data "wss".data) ∧
    Session.mk 0 "doc".data "wss".data ≠ Session.mk 1 "doc".data "wss".data := by
  decide

/-- C10: the cache key `collabUrl + ":" + docUrl` is not injective over
document identities: the distinct identities `("a:b", "c")` and
`("b", "c:a")` collide on the key `"c:a:b"`, and a `connect` for the second
identity returns the cached session bound to the first, breaking session
isolation by document identity. -/
theorem cacheKey_collision_breaks_isolation :
    (("a:b".data, "c".data) ≠ ("b".data, "c:a".data)) ∧
    cacheKey "a:b".data "c".data = cacheKey "b".data "c:a".data ∧
    connect ⟨[], 0⟩ "a:b".data "c".data true =
      (Except.ok (Session.mk 0 "a:b".data "c".data),
       ⟨[(cacheKey "a:b".data "c".data, Session.mk 0 "a:b".data "c".data)], 1⟩) ∧
    connect ⟨[(cacheKey "a:b".data "c".data, Session.mk 0 "a:b".data "c".data)], 1⟩
        "b".data "c:a".data true =
      (Except.ok (Session.mk 0 "a:b".data "c".data),
       ⟨[(cacheKey "a:b".data "c".data, Session.mk 0 "a:b".data "c".data)], 1⟩) ∧
    (Session.mk 0 "a:b".data "c".data).docUrl ≠ "b".data := by
  decide

/-- Greedy decimal-digit accumulator for `parseIntJS`. -/
def digitsAcc : List Char → Nat → Nat
  | [], acc => acc
  | c :: cs, acc =>
    if c.isDigit then digitsAcc cs (acc * 10 + (c.toNat - '0'.toNat)) else acc

/-- Leading decimal digits of a string: `none` when the first character is
not a digit, otherwise the greedily-parsed number (trailing non-digits are
ignored, as JavaScript's `parseInt` does). -/
def parseDigits : List Char → Option Nat
  | [] => none
  | c :: cs => if c.isDigit then some (digitsAcc (c :: cs) 0) else none

/-- Embedding of JavaScript's `parseInt(s)` on decimal strings: optional
sign followed by digits; `none` models `NaN`. -/
def parseIntJS : List Char → Option Int
  | '-' :: rest => (parseDigits rest).map (fun n => -(n : Int))
  | '+' :: rest => (parseDigits rest).map (fun n => (n : Int))
  | s => (parseDigits s).map (fun n => (n : Int))

/-- Node construction of `insertAtCursor` (lines 273-281): `"paragraph"`
yields a paragraph; any `nodeType` starting with `"heading"` yields a
heading whose level is `parseInt(nodeType.replace('heading', ''))` (the
`replace` drops the 7-character prefix); everything else falls back to a
paragraph.  The node carries `schema.text(text)` as content. -/
def buildNode (text : List Char) (nodeType : List Char) : Block :=
  if nodeType = "paragraph".data then ⟨NodeKind.paragraph, text⟩
  else if "heading".data.isPrefixOf nodeType then
    ⟨NodeKind.heading (parseIntJS (nodeType.drop 7)), text⟩
  else ⟨NodeKind.paragraph, text⟩

/-- ProseMirror's `selection.to` (the larger selection endpoint); for the
initial `AllSelection` it is the document's content size. -/
def selTo : Sel → List Block → Nat
  | Sel.all, doc => docSize doc
  | Sel.textSel a h, _ => max a h

/-- Semantics of `tr.insert(p, node)` for a block node at flat position `p`:
at a depth-0 block boundary the node is placed between the surrounding
blocks; at an inline position the enclosing textblock is split around the
inserted node. -/
def insertNodeAt : List Block → Nat → Block → List Block
  | blocks, 0, nb => nb :: blocks
  | [], _ + 1, nb => [nb]
  | b :: bs, p + 1, nb =>
    if p + 1 ≤ b.text.length + 1 then
      ⟨b.kind, b.text.take p⟩ :: nb :: ⟨b.kind, b.text.drop p⟩ :: bs
    else b :: insertNodeAt bs (p + 1 - sizeB b) nb

/-- Embedding of `insertAtCursor(docUrl, collabUrl, text, nodeType)` (lines
267-298): builds the node for `nodeType` and inserts it at the current
selection's end offset (`view.state.selection.to`).  `schema.text('')`
throws "Empty text nodes are not allowed", which the catch converts to a
failure result with the document unchanged; otherwise the operation reports
success with the message `nodeType + " inserted successfully"`. -/
def insertAtCursor (doc : List Block) (sel : Sel) (text nodeType : List Char) :
    OpResult × List Block :=
  if text = [] then
    (⟨false, "Error: Empty text nodes are not allowed".data, none⟩, doc)
  else
    (⟨true, nodeType ++ " inserted successfully".data, none⟩,
     insertNodeAt doc (selTo sel doc) (buildNode text nodeType))

theorem node_mem_insertNodeAt :
    ∀ (doc : List Block) (p : Nat) (nb : Block), nb ∈ insertNodeAt doc p nb := by
  intro doc
  induction doc with
  | nil =>
    intro p nb
    cases p <;> simp [insertNodeAt]
  | cons b bs ih =>
    intro p nb
    cases p with
    | zero => simp [insertNodeAt]
    | succ q =>
      rw [insertNodeAt]
      split
      · simp
      · simp only [List.mem_cons]
        exact Or.inr (ih _ nb)

/-- Counterexample to C6: `nodeType = "heading7"` is neither `"paragraph"`
nor one of `"heading1"`..`"heading6"`, yet `insertAtCursor` constructs and
inserts a level-7 HEADING node, not a paragraph; additionally, for an empty
text the operation does not return success but fails (the empty text node
throws).  Both contradict the claim as stated. -/
theorem insertAtCursor_heading7_counterexample :
    ("heading7".data ≠ "paragraph".data ∧
     "heading7".data ≠ "heading1".data ∧ "heading7".data ≠ "heading2".data ∧
     "heading7".data ≠ "heading3".data ∧ "heading7".data ≠ "heading4".data ∧
     "heading7".data ≠ "heading5".data ∧ "heading7".data ≠ "heading6".data) ∧
    buildNode "x".data "heading7".data =
      Block.mk (NodeKind.heading (some 7)) "x".data ∧
    NodeKind.heading (some 7) ≠ NodeKind.paragraph ∧
    (insertAtCursor [Block.mk NodeKind.paragraph "ab".data] (Sel.textSel 3 3)
        "x".data "heading7".data).1.success = true ∧
    ((insertAtCursor [Block.mk NodeKind.paragraph "ab".data] (Sel.textSel 3 3)
        "x".data "heading7".data).2)[1]? =
      some (Block.mk (NodeKind.heading (some 7)) "x".data) ∧
    (insertAtCursor [Block.mk NodeKind.paragraph "ab".data] (Sel.textSel 1 1)
        [] "blockquote".data).1.success = false := by
  decide

/-- C6 as amended: for every `nodeType` that is neither `"paragraph"` nor a
string starting with `"heading"`, and nonempty text, `insertAtCursor`
silently constructs and inserts a paragraph node containing the given text,
returns success, and raises no error. -/
theorem insertAtCursor_fallback_paragraph
    (doc : List Block) (sel : Sel) (text nodeType : List Char)
    (ht : text ≠ [])
    (h1 : nodeType ≠ "paragraph".data)
    (h2 : "heading".data.isPrefixOf nodeType = false) :
    buildNode text nodeType = Block.mk NodeKind.paragraph text ∧
    (insertAtCursor doc sel text nodeType).1.success = true ∧
    (insertAtCursor doc sel text nodeType).2 =
      insertNodeAt doc (selTo sel doc) (Block.mk NodeKind.paragraph text) ∧
    Block.mk NodeKind.paragraph text ∈ (insertAtCursor doc sel text nodeType).2 := by
  have hb : buildNode text nodeType = Block.mk NodeKind.paragraph text := by
    rw [buildNode, if_neg h1, h2]
    simp
  refine ⟨hb, ?_, ?_, ?_⟩
  · rw [insertAtCursor, if_neg ht]
  · rw [insertAtCursor, if_neg ht, hb]
  · rw [insertAtCursor, if_neg ht, hb]
    exact node_mem_insertNodeAt doc (selTo sel doc) (Block.mk NodeKind.paragraph text)

/-- Witness for the amended C6 at `nodeType = "blockquote"`. -/
theorem insertAtCursor_fallback_paragraph_witness :
    ("x".data ≠ ([] : List Char) ∧ "blockquote".data ≠ "paragraph".data ∧
      "heading".data.isPrefixOf "blockquote".data = false) ∧
    (buildNode "x".data "blockquote".data = Block.mk NodeKind.paragraph "x".data ∧
    (insertAtCursor [Block.mk NodeKind.paragraph "ab".data] (Sel.textSel 1 1)
        "x".data "blockquote".data).1.success = true ∧
    (insertAtCursor [Block.mk NodeKind.paragraph "ab".data] (Sel.textSel 1 1)
        "x".data "blockquote".data).2 =
      insertNodeAt [Block.mk NodeKind.paragraph "ab".data]
        (selTo (Sel.textSel 1 1) [Block.mk NodeKind.paragraph "ab".data])
        (Block.mk NodeKind.paragraph "x".data) ∧
    Block.mk NodeKind.paragraph "x".data ∈
      (insertAtCursor [Block.mk NodeKind.paragraph "ab".data] (Sel.textSel 1 1)
        "x".data "blockquote".data).2) :=
  ⟨⟨by decide, by decide, by decide⟩,
   insertAtCursor_fallback_paragraph _ _ _ _ (by decide) (by decide) (by decide)⟩

theorem resolveInline_lt :
    ∀ (doc : List Block) (p i off : Nat),
      resolveInline doc p = some (i, off) → i < doc.length := by
  intro doc
  induction doc with
  | nil => intro p i off h; simp [resolveInline] at h
  | cons b bs ih =>
    intro p i off h
    rw [resolveInline] at h
    split at h
    · simp at h
    · split at h
      · simp only [Option.some.injEq, Prod.mk.injEq] at h
        simp [← h.1]
      · cases hr : resolveInline bs (p - sizeB b) with
        | none => rw [hr] at h; simp at h
        | some pr =>
          obtain ⟨i2, off2⟩ := pr
          rw [hr] at h
          simp only [Option.some.injEq, Prod.mk.injEq] at h
          have hlt := ih _ i2 off2 hr
          simp only [List.length_cons]
          omega

/-- Embedding of `deleteBlock(docUrl, collabUrl)` (lines 231-262).  For a
`TextSelection` the anchor's parent (`$from.parent`) is the enclosing block;
`$from.before()` and `$from.after()` are that block's boundary positions, so
`tr.delete(from, to)` removes exactly that block's span.  For the depth-0
`AllSelection` anchor, `$from.before()` throws "There is no position before
the top-level node" and the catch converts it to a failure result; an anchor
that resolves to no block likewise throws while resolving.  The document is
untouched on every failure path. -/
def deleteBlock (doc : List Block) (sel : Sel) : OpResult × List Block :=
  match sel with
  | Sel.all =>
    (⟨false, "Error: There is no position before the top-level node".data, none⟩, doc)
  | Sel.textSel a _ =>
    match resolveInline doc a with
    | some (i, _) =>
      (⟨true, "Block deleted successfully".data, none⟩, doc.eraseIdx i)
    | none =>
      (⟨false, "Error: Position out of range".data, none⟩, doc)

/-- C7: when the selection anchor resolves to block `i` of a document with
more than one block, `deleteBlock` succeeds, removes exactly that block
(count drops to N-1, every other block keeps its content and order), and
when the enclosing block cannot be resolved (the placeholder
`AllSelection`), it fails. -/
theorem deleteBlock_removes_anchor_block
    (doc : List Block) (a h i off : Nat)
    (hN : 1 < doc.length)
    (hres : resolveInline doc a = some (i, off)) :
    (deleteBlock doc (Sel.textSel a h)).1.success = true ∧
    (deleteBlock doc (Sel.textSel a h)).2 = doc.eraseIdx i ∧
    (deleteBlock doc (Sel.textSel a h)).2.length = doc.length - 1 ∧
    (∀ j, j < i → ((deleteBlock doc (Sel.textSel a h)).2)[j]? = doc[j]?) ∧
    (∀ j, i ≤ j → ((deleteBlock doc (Sel.textSel a h)).2)[j]? = doc[j + 1]?) ∧
    (deleteBlock doc Sel.all).1.success = false := by
  have hi : i < doc.length := resolveInline_lt doc a i off hres
  have hd : deleteBlock doc (Sel.textSel a h) =
      (⟨true, "Block deleted successfully".data, none⟩, doc.eraseIdx i) := by
    simp [deleteBlock, hres]
  refine ⟨by rw [hd], by rw [hd], ?_, ?_, ?_, by simp [deleteBlock]⟩
  · rw [hd]
    exact List.length_eraseIdx_of_lt hi
  · intro j hj
    rw [hd]
    exact List.getElem?_eraseIdx_of_lt doc i j hj
  · intro j hj
    rw [hd]
    exact List.getElem?_eraseIdx_of_ge doc i j hj

/-- Witness for C7: deleting the first block of a two-paragraph document
from an anchor inside it. -/
theorem deleteBlock_removes_anchor_block_witness :
    (1 < ([Block.mk NodeKind.paragraph "ab".data,
        Block.mk NodeKind.paragraph "cd".data] : List Block).length ∧
      resolveInline [Block.mk NodeKind.paragraph "ab".data,
        Block.mk NodeKind.paragraph "cd".data] 1 = some (0, 0)) ∧
    ((deleteBlock [Block.mk NodeKind.paragraph "ab".data,
        Block.mk NodeKind.paragraph "cd".data] (Sel.textSel 1 1)).1.success = true ∧
    (deleteBlock [Block.mk NodeKind.paragraph "ab".data,
        Block.mk NodeKind.paragraph "cd".data] (Sel.textSel 1 1)).2 =
      ([Block.mk NodeKind.paragraph "ab".data,
        Block.mk NodeKind.paragraph "cd".data] : List Block).eraseIdx 0 ∧
    (deleteBlock [Block.mk NodeKind.paragraph "ab".data,
        Block.mk NodeKind.paragraph "cd".data] (Sel.textSel 1 1)).2.length =
      ([Block.mk NodeKind.paragraph "ab".data,
        Block.mk NodeKind.paragraph "cd".data] : List Block).length - 1 ∧
    (∀ j, j < 0 →
      ((deleteBlock [Block.mk NodeKind.paragraph "ab".data,
        Block.mk NodeKind.paragraph "cd".data] (Sel.textSel 1 1)).2)[j]? =
      ([Block.mk NodeKind.paragraph "ab".data,
        Block.mk NodeKind.paragraph "cd".data] : List Block)[j]?) ∧
    (∀ j, 0 ≤ j →
      ((deleteBlock [Block.mk NodeKind.paragraph "ab".data,
        Block.mk NodeKind.paragraph "cd".data] (Sel.textSel 1 1)).2)[j]? =
      ([Block.mk NodeKind.paragraph "ab".data,
        Block.mk NodeKind.paragraph "cd".data] : List Block)[j + 1]?) ∧
    (deleteBlock [Block.mk NodeKind.paragraph "ab".data,
        Block.mk NodeKind.paragraph "cd".data] Sel.all).1.success = false) :=
  ⟨⟨by decide, by decide⟩,
   deleteBlock_removes_anchor_block _ 1 1 0 0 (by decide) (by decide)⟩

/-- The cursor marker published on the awareness channel: both selection
endpoints as structure-relative markers. -/
structure CursorRec where
  anchor : Option (Nat × Nat)
  head : Option (Nat × Nat)
deriving DecidableEq, Repr

/-- Embedding of y-prosemirror's `absolutePositionToRelativePosition`: a
flat offset re-expressed as a structure-relative marker (enclosing block
index, offset within it). -/
def absToRel (doc : List Block) (p : Nat) : Option (Nat × Nat) :=
  resolveInline doc p

/-- Embedding of `updateCursorInfo` from the headless cursor plugin
(headless-cursor-plugin.js lines 31-69), run on every view update: returns
the awareness `cursor` field to publish, or `none` when nothing is
broadcast.  An `AllSelection` (the initial placeholder before the document
is loaded) is suppressed outright; otherwise both endpoints are converted to
relative positions and published only when they differ from the currently
published marker pair. -/
def updateCursorInfo (doc : List Block) (sel : Sel) (current : Option CursorRec) :
    Option CursorRec :=
  match sel with
  | Sel.all => none
  | Sel.textSel a h =>
    let anchor := absToRel doc a
    let head := absToRel doc h
    match current with
    | none => some ⟨anchor, head⟩
    | some cur =>
      if cur.anchor = anchor ∧ cur.head = head then none
      else some ⟨anchor, head⟩

/-- C9: on every view update whose selection is the whole-document
`AllSelection` placeholder, the cursor projection plugin broadcasts no
awareness cursor update, whatever the document and the currently published
marker are. -/
theorem cursorPlugin_never_publishes_allSelection
    (doc : List Block) (current : Option CursorRec) :
    updateCursorInfo doc Sel.all current = none := rfl

end DA
